import Mathlib

set_option maxRecDepth 4000

/-!
Verification development for the NetSuite client repository.

The JavaScript sources are embedded shallowly: pure string helpers become
Lean functions on `List Char`, the service's mutable private fields become
an explicit `ServiceState` record, and every network interaction is
abstracted as an environment record supplying the responses the code would
observe, while the requests the code issues are recorded in an event trace.
-/

deriving instance DecidableEq for Except

namespace NetSuite

/-! ## NormalizeUtils (src/utils/normalize.utils.js)

Each `String.prototype.replace` call of `normalize` is embedded as one
stage on `List Char`.  Regexes without the `g` flag replace only the first
match, which the stage functions mirror. -/

/-- Character class `[^ ~]` used by the link regex. -/
def nonSpaceTilde (c : Char) : Bool := c ≠ ' ' && c ≠ '~'

/-- Length consumed by `https?:\/\/` at the head of the list, if it matches.
`https?` is greedy, so `https://` is tried before `http://`; the two cannot
both match at one position. -/
def schemeLen (l : List Char) : Option Nat :=
  if ("https://".toList).isPrefixOf l then some 8
  else if ("http://".toList).isPrefixOf l then some 7
  else none

/-- Length of the match of `https?:\/\/[^ ~]+` at the head of the list, if
any: the scheme followed by a maximal nonempty run of non-space non-tilde
characters. -/
def urlMatchLen (l : List Char) : Option Nat :=
  match schemeLen l with
  | none => none
  | some k =>
    let r := ((l.drop k).takeWhile nonSpaceTilde).length
    if r = 0 then none else some (k + r)

/-- Global replacement of `https?:\/\/[^ ~]+` by the empty string, scanning
left to right and resuming after each match.  The fuel argument only
bounds the recursion; any fuel of at least the list length gives the same
result (`removeLinksFuel_irrel`). -/
def removeLinksFuel : Nat → List Char → List Char
  | 0, _ => []
  | _ + 1, [] => []
  | fuel + 1, c :: rest =>
    match urlMatchLen (c :: rest) with
    | some n => removeLinksFuel fuel (rest.drop (n - 1))
    | none => c :: removeLinksFuel fuel rest

/-- `NormalizeUtils.removeLinks` on character lists. -/
def removeLinksL (l : List Char) : List Char := removeLinksFuel l.length l

/-- `NormalizeUtils.removeLinks`. -/
def removeLinks (s : String) : String := (removeLinksL s.toList).asString

/-- The character alternation `"|\{|\}|\*|:|<|>|\?|\/|\%|\+|\|` removed
globally by `normalize`. -/
def reservedChar (c : Char) : Bool :=
  c = '\x22' || c = '\x7b' || c = '\x7d' || c = '*' || c = ':' || c = '<' ||
  c = '>' || c = '?' || c = '/' || c = '%' || c = '+' || c = '|'

/-- Stage `.replace(/\*/g, '')`. -/
def removeStars (l : List Char) : List Char := l.filter (fun c => c ≠ '*')

/-- Stage `.replace(/"|\{|\}|\*|:|<|>|\?|\/|\%|\+|\|/g, '')`. -/
def removeReserved (l : List Char) : List Char := l.filter (fun c => !reservedChar c)

/-- Stage `.replace(/\r|\t/g, '')`. -/
def removeCrTab (l : List Char) : List Char := l.filter (fun c => c ≠ '\r' && c ≠ '\t')

/-- Stage `.replace(/\n/g, ' - ')`. -/
def newlineDash (l : List Char) : List Char :=
  l.flatMap (fun c => if c = '\n' then [' ', '-', ' '] else [c])

/-- Stage `.replace(/\&/g, 'and')`. -/
def ampersandAnd (l : List Char) : List Char :=
  l.flatMap (fun c => if c = '&' then ['a', 'n', 'd'] else [c])

/-- Stage `.replace(/\.+/, '.')` — no `g` flag: only the first maximal run
of dots is collapsed to a single dot. -/
def collapseFirstDots : List Char → List Char
  | [] => []
  | c :: rest =>
    if c = '.' then '.' :: rest.dropWhile (fun d => d = '.')
    else c :: collapseFirstDots rest

/-- Stage `.replace(/^~/, '')`. -/
def stripLeadingTilde : List Char → List Char
  | '~' :: rest => rest
  | l => l

/-- Stage `.replace(/^\.|\.$/, '')` — no `g` flag: the leftmost match is a
leading dot when present, otherwise a trailing dot. -/
def stripDotOnce (l : List Char) : List Char :=
  match l with
  | '.' :: rest => rest
  | _ => if l.getLast? = some '.' then l.dropLast else l

/-- The JavaScript `\s` class (also the set `String.prototype.trim`
removes). -/
def jsIsSpace (c : Char) : Bool :=
  c = ' ' || c = '\t' || c = '\n' || c = '\r' || c = '\x0b' || c = '\x0c' ||
  c = ' ' || c = ' ' || (' ' ≤ c && c ≤ ' ') ||
  c = ' ' || c = ' ' || c = ' ' || c = ' ' ||
  c = '　' || c = '﻿'

/-- Stage `.replace(/\s+/, ' ')` — no `g` flag: only the first maximal
whitespace run is collapsed to a single space. -/
def collapseFirstWs : List Char → List Char
  | [] => []
  | c :: rest =>
    if jsIsSpace c then ' ' :: rest.dropWhile jsIsSpace
    else c :: collapseFirstWs rest

/-- Stage `.trim()`. -/
def jsTrim (l : List Char) : List Char :=
  ((l.dropWhile jsIsSpace).reverse.dropWhile jsIsSpace).reverse

/-- The replace chain of `NormalizeUtils.normalize` after the initial
`removeLinks` call, on character lists. -/
def normalizeAfterLinksL (l : List Char) : List Char :=
  jsTrim (collapseFirstWs (stripDotOnce (stripLeadingTilde (collapseFirstDots
    (ampersandAnd (newlineDash (removeCrTab (removeReserved (removeStars l)))))))))

/-- The replace chain of `normalize` after `removeLinks`, on strings. -/
def normalizeAfterLinks (s : String) : String := (normalizeAfterLinksL s.toList).asString

/-- `NormalizeUtils.normalize`. -/
def normalize (s : String) : String := (normalizeAfterLinksL (removeLinksL s.toList)).asString

/-! ## NetSuiteService (src/services/netSuite.service.js)

All errors in the source are `BaseError` instances distinguished only by
their message strings, so the error type carries the message.  JavaScript
`null` and `undefined` are both modelled as `none`; no claim depends on
their distinct string forms. -/

/-- A `BaseError` thrown by the service. -/
inductive NsError where
  | base (msg : String)
deriving DecidableEq

/-- A JavaScript value in a body/headers position: `undefined`, a string,
or a plain object of string fields. -/
inductive JsVal where
  | undef
  | str (s : String)
  | obj (fields : List (String × String))
deriving DecidableEq

/-- Truthiness of an optional string, as JavaScript `if (x)` sees it:
`undefined`, `null` and the empty string are falsy. -/
def truthy : Option String → Bool
  | none => false
  | some s => s ≠ ""

/-- The service's private mutable fields. -/
structure ServiceState where
  nsAccountId : String
  nsClientId : String
  nsClientSecret : String
  nsState : Option String
  nsCode : Option String
  nsAccessToken : Option String
  nsRefreshToken : Option String
  isDebug : Bool
  shouldLogToken : Bool
  nsScript : Option String
  nsDeploy : String
deriving DecidableEq

/-- The constructor's parameter object. -/
structure ServiceParams where
  accountId : Option String
  client : Option String
  secret : Option String
  token : Option String
  script : Option String
  deploy : Option String
  debug : Bool
  logToken : Option String
deriving DecidableEq

/-- `logout()`: clears the four token-state fields. -/
def logout (st : ServiceState) : ServiceState :=
  { st with nsState := none, nsCode := none, nsAccessToken := none, nsRefreshToken := none }

/-- The constructor: validates the three mandatory credentials, stores the
fields, establishes a clean token state via `logout()`, then installs a
pre-supplied access token if any.  `envDebug` stands for
`process.env.MS_GRAPH_DEBUG === 'true'`. -/
def construct (p : ServiceParams) (envDebug : Bool) : Except NsError ServiceState :=
  if ¬ truthy p.accountId then
    .error (.base "⚠️ The NetSuite Account ID is required!")
  else if ¬ truthy p.client then
    .error (.base "⚠️ The NetSuite APP ClientID is required!")
  else if ¬ truthy p.secret then
    .error (.base "⚠️ The NetSuite APP ClientSecret is required!")
  else
    let st0 : ServiceState :=
      { nsAccountId := p.accountId.getD ""
        nsClientId := p.client.getD ""
        nsClientSecret := p.secret.getD ""
        nsState := none, nsCode := none
        nsAccessToken := none, nsRefreshToken := none
        isDebug := p.debug || envDebug
        shouldLogToken := p.logToken = some "true"
        nsScript := p.script
        nsDeploy := if truthy p.deploy then p.deploy.getD "" else "1" }
    .ok { logout st0 with nsAccessToken := p.token }

/-- `#getApiUrl()`: the REST root with the account id substituted for `%s`. -/
def getApiUrl (st : ServiceState) : String :=
  "https://" ++ st.nsAccountId ++ ".suitetalk.api.netsuite.com/services/rest"

/-- String interpolation of a nullable token into a template literal. -/
def optStr : Option String → String
  | some s => s
  | none => "null"

/-- `#getAuthHeader()`: the bearer-token header object. -/
def getAuthHeader (st : ServiceState) : List (String × String) :=
  [("Authorization", "Bearer " ++ optStr st.nsAccessToken)]

/-- Fields contributed by spreading a JavaScript value into an object
literal, as in `{...headers}`. -/
def jsFields : JsVal → List (String × String)
  | .obj l => l
  | _ => []

/-- Object spread `{...a, ...b}`: keys of `a` in order with values
overridden by `b` where shared, then the new keys of `b`. -/
def spreadMerge (a b : List (String × String)) : List (String × String) :=
  (a.map (fun kv =>
    match b.find? (fun kv2 => kv2.1 = kv.1) with
    | some kv2 => (kv.1, kv2.2)
    | none => kv)) ++
  b.filter (fun kv2 => ¬ a.any (fun kv => kv.1 = kv2.1))

/-- A request handed to `fetch`. -/
structure FetchRequest where
  url : String
  method : String
  headers : List (String × String)
  body : JsVal
deriving DecidableEq

/-- `#internalRequest`: the request built from the current token plus the
caller's headers. -/
def internalRequest (st : ServiceState) (url method : String) (body headers : JsVal) :
    FetchRequest :=
  { url := url, method := method
    headers := spreadMerge (getAuthHeader st) (jsFields headers)
    body := body }

/-- An observable side effect: an HTTP request issued by
`#internalRequest`, or a token exchange posted to the token endpoint. -/
inductive Ev where
  | http (req : FetchRequest)
  | exchange (grant : String) (token : Option String)
deriving DecidableEq

/-- Number of token exchanges in a trace. -/
def exchangeCount (tr : List Ev) : Nat :=
  (tr.filter (fun e => match e with | .exchange _ _ => true | _ => false)).length

/-- Number of HTTP requests in a trace. -/
def httpCount (tr : List Ev) : Nat :=
  (tr.filter (fun e => match e with | .http _ => true | _ => false)).length

/-- The error payload of a parsed response body.  `message` is `none` when
the error object has no `message` property. -/
structure ErrInfo where
  message : Option String
deriving DecidableEq

/-- A parsed token-endpoint response body. -/
structure AuthBody where
  error : Option ErrInfo
  access_token : Option String
  refresh_token : Option String
deriving DecidableEq

/-- A parsed REST response body: the optional `error` field plus the rest
of the payload, kept opaque. -/
structure ApiBody where
  error : Option ErrInfo
  rest : String
deriving DecidableEq

/-- The environment of one token-endpoint `fetch`: HTTP status plus parsed
body on success, or the thrown transport/parse error message. -/
structure AuthEnv where
  fetchOutcome : Except String (Nat × AuthBody)
deriving DecidableEq

/-- `error?.message || 'fallback'`: a missing or empty message falls back. -/
def errMessageOr (e : ErrInfo) (fb : String) : String :=
  match e.message with
  | some m => if m = "" then fb else m
  | none => fb

/-- `#setAuthorizationTokens`. -/
def setAuthorizationTokens (st : ServiceState) (a : AuthBody) : ServiceState :=
  { st with nsAccessToken := a.access_token, nsRefreshToken := a.refresh_token }

/-- `grant_type === 'refresh_token' ? grant_type : 'code'`. -/
def tokenKeyOf (grant : String) : String :=
  if grant = "refresh_token" then grant else "code"

/-- The `try` block of `#requestAuthorizationToken`: post the form to the
token endpoint, reject any body with an `error` field (carrying the remote
message or the generic fallback), otherwise store the token pair. -/
def requestAuthTokenInner (env : AuthEnv) (st : ServiceState)
    (token : Option String) (grant : String) :
    Except NsError AuthBody × ServiceState × List Ev :=
  match env.fetchOutcome with
  | .error msg => (.error (.base msg), st, [.exchange grant token])
  | .ok (_, authorization) =>
    match authorization.error with
    | some err =>
      (.error (.base (errMessageOr err "Error in get authorization token")), st,
        [.exchange grant token])
    | none =>
      (.ok authorization, setAuthorizationTokens st authorization, [.exchange grant token])

/-- `#requestAuthorizationToken`: the `catch` clause replaces every error
raised inside the `try` block — including the one carrying the remote
error message — with the generic message naming the token key. -/
def requestAuthorizationToken (env : AuthEnv) (st : ServiceState)
    (token : Option String) (grant : String) :
    Except NsError AuthBody × ServiceState × List Ev :=
  let tokenKey := tokenKeyOf grant
  match requestAuthTokenInner env st token grant with
  | (.ok a, st1, tr) => (.ok a, st1, tr)
  | (.error _, st1, tr) =>
    (.error (.base ("Cannot get the NetSuite authorization " ++ tokenKey)), st1, tr)

/-- `#refreshToken`: delegates to the token exchange with the stored
refresh token.  Its own `catch` never fires, because the `try` block
returns the promise without awaiting it. -/
def refreshToken (env : AuthEnv) (st : ServiceState) :
    Except NsError AuthBody × ServiceState × List Ev :=
  requestAuthorizationToken env st st.nsRefreshToken "refresh_token"

/-- A response observed from `fetch`: status, status text, and the outcome
of `response.json()`. -/
structure FetchResponse where
  status : Nat
  statusText : String
  jsonOutcome : Except String ApiBody
deriving DecidableEq

/-- The environment of one inner attempt: the first response, the token
endpoint's behaviour for the refresh, and the response to the replay. -/
structure RenewEnv where
  first : FetchResponse
  refresh : AuthEnv
  second : FetchResponse
deriving DecidableEq

/-- `response.json()` as the attempt's result. -/
def jsonResult (r : FetchResponse) : Except NsError ApiBody :=
  match r.jsonOutcome with
  | .ok b => .ok b
  | .error m => .error (.base m)

/-- The tail of `#renewTokenWithNeeded` common to both paths: throw the
status text on a (still-)401 response, otherwise parse the body. -/
def renewFinish (r : FetchResponse) (st : ServiceState) (tr : List Ev) :
    Except NsError ApiBody × ServiceState × List Ev :=
  if r.status = 401 then (.error (.base r.statusText), st, tr)
  else (jsonResult r, st, tr)

/-- `#renewTokenWithNeeded`: issue the request; on a 401, run one token
refresh and issue the request once more; a 401 on the resulting response
is thrown as the status text. -/
def renewTokenWithNeeded (env : RenewEnv) (st : ServiceState)
    (url method : String) (body headers : JsVal) :
    Except NsError ApiBody × ServiceState × List Ev :=
  let req1 := internalRequest st url method body headers
  if env.first.status = 401 then
    match refreshToken env.refresh st with
    | (.error e, st1, tr) => (.error e, st1, .http req1 :: tr)
    | (.ok _, st1, tr) =>
      let req2 := internalRequest st1 url method body headers
      renewFinish env.second st1 (.http req1 :: (tr ++ [.http req2]))
  else
    renewFinish env.first st [.http req1]

/-- `static #MAX_RETRIES = 3`. -/
def MAX_RETRIES : Nat := 3

/-- The `Max retries error` thrown after the loop. -/
def maxRetriesError (method url : String) : NsError :=
  .base ("Max retries error in request [" ++ method ++ "]: " ++ url)

/-- The `Error in request` thrown on an application-level error body. -/
def requestErrorOf (method url : String) : NsError :=
  .base ("Error in request [" ++ method ++ "]: " ++ url)

/-- The transient-error marker tested against `response.error.message`. -/
def ioErrorMarker : String := "IO error during request payload read"

/-- Substring test, as `RegExp.prototype.test` with a literal pattern. -/
def strContains (hay pat : String) : Bool :=
  go hay.toList pat.toList
where
  go : List Char → List Char → Bool
    | l, p => if p.isPrefixOf l then true else
      match l with
      | [] => false
      | _ :: t => go t p

/-- `/IO error during request payload read/.test(response.error.message)`:
a missing message stringifies to `"undefined"`, which does not match. -/
def markerTest : Option String → Bool
  | some m => strContains m ioErrorMarker
  | none => false

/-- What the body of the `while` loop does with a parsed response body. -/
inductive InnerStep where
  | retNull
  | throwErr (e : NsError)
  | breakWith (b : ApiBody)
deriving DecidableEq

/-- Lines 326–334 of the executor: a body with an `error` field either
soft-succeeds (marker match, `return null`) or throws the request error;
otherwise the loop breaks with the body. -/
def handleParsedBody (method url : String) (b : ApiBody) : InnerStep :=
  match b.error with
  | some err =>
    if markerTest err.message then .retNull
    else .throwErr (requestErrorOf method url)
  | none => .breakWith b

/-- The observable outcome of `#requestApi`: result (`.ok none` is the
soft-success `null`), final state, number of inner attempts performed, and
the event trace. -/
structure ApiOut where
  result : Except NsError (Option ApiBody)
  state : ServiceState
  attempts : Nat
  trace : List Ev
deriving DecidableEq

/-- The `while (retry <= MAX_RETRIES)` loop.  `attemptIdx` is the value of
`retry`, `remaining` is `MAX_RETRIES - retry + 1`; each caught error
increments `retry`.  Exhaustion throws the max-retries error. -/
def requestApiGo (envs : Nat → RenewEnv) (url method : String) (body headers : JsVal) :
    Nat → Nat → ServiceState → ApiOut
  | _, 0, st => ⟨.error (maxRetriesError method url), st, 0, []⟩
  | attemptIdx, remaining + 1, st =>
    match renewTokenWithNeeded (envs attemptIdx) st (getApiUrl st ++ url) method body headers with
    | (.error _, st1, tr) =>
      let o := requestApiGo envs url method body headers (attemptIdx + 1) remaining st1
      ⟨o.result, o.state, o.attempts + 1, tr ++ o.trace⟩
    | (.ok b, st1, tr) =>
      match handleParsedBody method url b with
      | .retNull => ⟨.ok none, st1, 1, tr⟩
      | .throwErr _ =>
        let o := requestApiGo envs url method body headers (attemptIdx + 1) remaining st1
        ⟨o.result, o.state, o.attempts + 1, tr ++ o.trace⟩
      | .breakWith b1 => ⟨.ok (some b1), st1, 1, tr⟩

/-- `#requestApi(url, method, body, headers = {})`. -/
def requestApi (envs : Nat → RenewEnv) (st : ServiceState)
    (url method : String) (body headers : JsVal) : ApiOut :=
  let headersEff := if headers = JsVal.undef then JsVal.obj [] else headers
  requestApiGo envs url method body headersEff 1 MAX_RETRIES st

/-- `requestGet(url, headers)` calls `#requestApi(url, 'GET', headers)`:
the caller's headers land in the executor's `body` parameter and the
`headers` parameter takes its `{}` default. -/
def requestGet (envs : Nat → RenewEnv) (st : ServiceState)
    (url : String) (headers : JsVal) : ApiOut :=
  requestApi envs st url "GET" headers JsVal.undef

/-- `requestPost(url, body, headers)`. -/
def requestPost (envs : Nat → RenewEnv) (st : ServiceState)
    (url : String) (body headers : JsVal) : ApiOut :=
  requestApi envs st url "POST" body headers

/-- `requestPut(url, body, headers, debug)` — the fourth argument is
passed beyond the executor's parameter list and ignored. -/
def requestPut (envs : Nat → RenewEnv) (st : ServiceState)
    (url : String) (body headers _debug : JsVal) : ApiOut :=
  requestApi envs st url "PUT" body headers

/-- `requestDelete(url, body, headers)`. -/
def requestDelete (envs : Nat → RenewEnv) (st : ServiceState)
    (url : String) (body headers : JsVal) : ApiOut :=
  requestApi envs st url "DELETE" body headers

/-! ## downloadFile and the base64 detector -/

/-- `[A-Za-z0-9+/]`. -/
def isB64Char (c : Char) : Bool := c.isAlpha || c.isDigit || c = '+' || c = '/'

/-- The final group of the base64 regex: four base64 characters, three
plus `=`, or two plus `==`. -/
def b64Tail (a b c d : Char) : Bool :=
  if c = '=' && d = '=' then isB64Char a && isB64Char b
  else if d = '=' then isB64Char a && isB64Char b && isB64Char c
  else isB64Char a && isB64Char b && isB64Char c && isB64Char d

/-- The anchored base64 regex `#nsBase64Regex`: zero or more groups of four
base64 characters, ending in a group of four, three plus `=`, or two plus
`==`.  Groups are consumed four at a time; padding may occur only in the
final group. -/
def b64Test : List Char → Bool
  | a :: b :: c :: d :: rest =>
    match rest with
    | [] => b64Tail a b c d
    | _ :: _ => isB64Char a && isB64Char b && isB64Char c && isB64Char d && b64Test rest
  | _ => false

/-- `#isFileInBase64`. -/
def isFileInBase64 (file : String) : Bool := b64Test file.toList

/-- The restlet's parsed JSON response: `content` and `info.name`. -/
structure FileInfo where
  name : String
deriving DecidableEq

/-- The file object returned by the restlet. -/
structure FileObj where
  content : String
  info : FileInfo
deriving DecidableEq

/-- The restlet `fetch` outcome: `ok` flag, status text, the body read as
text on failure, and the parsed JSON on success. -/
structure RestletResponse where
  ok : Bool
  statusText : String
  textBody : String
  jsonOutcome : Except String FileObj
deriving DecidableEq

/-- What gets written to disk: decoded binary bytes or raw text. -/
inductive FileData where
  | binary (bytes : List Nat)
  | text (s : String)
deriving DecidableEq

/-- External collaborators of `downloadFile`: the restlet's response,
Node's `path.resolve`, and Node's `Buffer.from(s, 'base64')`. -/
structure DownloadEnv where
  response : RestletResponse
  resolvePath : String → String → String
  b64decode : String → List Nat

/-- The observable outcome of `downloadFile`: result, the `fs.writeFile`
calls performed, and the number of network calls issued. -/
structure DownloadOut where
  result : Except NsError String
  writes : List (String × FileData)
  fetches : Nat
deriving DecidableEq

/-- `downloadFile(fileId, folderPath)`: fail fast without any network call
when no script id is configured; otherwise POST to the restlet once, pick
binary or text content by the base64 regex, write to
`resolve(folderPath, normalize(info.name))` and return that path.  Every
failure inside the `try` collapses into the catch clause's error. -/
def downloadFile (env : DownloadEnv) (st : ServiceState)
    (fileId folderPath : String) : DownloadOut :=
  if ¬ truthy st.nsScript then
    ⟨.error (.base "Script is required!"), [], 0⟩
  else
    let r := env.response
    if ¬ r.ok then
      ⟨.error (.base ("Cannot download the file " ++ fileId)), [], 1⟩
    else
      match r.jsonOutcome with
      | .error _ => ⟨.error (.base ("Cannot download the file " ++ fileId)), [], 1⟩
      | .ok fileObj =>
        let contentFile :=
          if isFileInBase64 fileObj.content then FileData.binary (env.b64decode fileObj.content)
          else FileData.text fileObj.content
        let downloadPath := env.resolvePath folderPath (normalize fileObj.info.name)
        ⟨.ok downloadPath, [(downloadPath, contentFile)], 1⟩

/-! ## Derived notions used by the theorems -/

/-- The scheme `https://` as a character list. -/
def httpsL : List Char := ['h', 't', 't', 'p', 's', ':', '/', '/']

/-- The scheme `http://` as a character list. -/
def httpL : List Char := ['h', 't', 't', 'p', ':', '/', '/']

/-- Forgets the error payload of an attempt's result. -/
def exceptShape : Except NsError ApiBody → Except Unit ApiBody
  | .error _ => .error ()
  | .ok b => .ok b

/-- The common tail of an inner attempt, as a function of the decisive
response alone. -/
def finishOutcome (r : FetchResponse) : Except Unit ApiBody :=
  if r.status = 401 then .error ()
  else match r.jsonOutcome with
    | .ok b => .ok b
    | .error _ => .error ()

/-- Whether `#renewTokenWithNeeded` under environment `env` throws or
which body it returns — this depends only on the environment, not on the
service state (`renewTokenWithNeeded_outcome`). -/
def renewOutcome (env : RenewEnv) : Except Unit ApiBody :=
  if env.first.status = 401 then
    match env.refresh.fetchOutcome with
    | .error _ => .error ()
    | .ok (_, ab) =>
      match ab.error with
      | some _ => .error ()
      | none => finishOutcome env.second
  else finishOutcome env.first

/-- Whether the token exchange described by `a` succeeds. -/
def refreshOk (a : AuthEnv) : Bool :=
  match a.fetchOutcome with
  | .ok (_, ab) => ab.error.isNone
  | .error _ => false

/-- Whether an inner attempt under environment `env` counts as a failure
of the outer loop: the attempt throws, or its body carries an `error`
field whose message misses the transient marker. -/
def attemptFails (env : RenewEnv) : Bool :=
  match renewOutcome env with
  | .error _ => true
  | .ok b =>
    match b.error with
    | some e => !markerTest e.message
    | none => false

/-! ## Concrete fixtures for witnesses and counterexamples -/

/-- A signed-in service state. -/
def stA : ServiceState :=
  { nsAccountId := "acct", nsClientId := "cid", nsClientSecret := "sec"
    nsState := none, nsCode := none, nsAccessToken := some "A", nsRefreshToken := some "R"
    isDebug := false, shouldLogToken := false, nsScript := some "1054", nsDeploy := "2" }

/-- An error-free parsed body. -/
def okBody : ApiBody := { error := none, rest := "payload" }

/-- A token endpoint that answers with a fresh token pair. -/
def authOkEnv : AuthEnv :=
  { fetchOutcome := .ok (200, { error := none, access_token := some "A2", refresh_token := some "R2" }) }

/-- An attempt environment whose first request fails with a thrown parse
error. -/
def failEnv : RenewEnv :=
  { first := { status := 500, statusText := "Internal Server Error", jsonOutcome := .error "boom" }
    refresh := authOkEnv
    second := { status := 200, statusText := "OK", jsonOutcome := .ok okBody } }

/-- An attempt environment whose first request succeeds cleanly. -/
def okEnv : RenewEnv :=
  { first := { status := 200, statusText := "OK", jsonOutcome := .ok okBody }
    refresh := authOkEnv
    second := { status := 200, statusText := "OK", jsonOutcome := .ok okBody } }

/-- An attempt environment answering 401 both before and after the token
refresh. -/
def env401 : RenewEnv :=
  { first := { status := 401, statusText := "Unauthorized", jsonOutcome := .ok okBody }
    refresh := authOkEnv
    second := { status := 401, statusText := "Unauthorized", jsonOutcome := .ok okBody } }

/-- A parsed body whose `error.message` contains the transient marker. -/
def markerBody : ApiBody :=
  { error := some { message := some "the IO error during request payload read happened" }
    rest := "" }

/-- An attempt environment delivering `markerBody` on the first request. -/
def markerEnv : RenewEnv :=
  { first := { status := 200, statusText := "OK", jsonOutcome := .ok markerBody }
    refresh := authOkEnv
    second := { status := 200, statusText := "OK", jsonOutcome := .ok okBody } }

/-- A token endpoint answering with an `error` field carrying a remote
message. -/
def remoteErrEnv : AuthEnv :=
  { fetchOutcome := .ok (200,
      { error := some { message := some "remote says no" }, access_token := none, refresh_token := none }) }

/-- A restlet environment returning a base64 payload named `a*b.txt`. -/
def dlEnv : DownloadEnv :=
  { response := { ok := true, statusText := "OK", textBody := ""
                  jsonOutcome := .ok { content := "QUJD", info := { name := "a*b.txt" } } }
    resolvePath := fun a b => a ++ "/" ++ b
    b64decode := fun _ => [65, 66, 67] }

/-! ## Lemmas: character tracking through the sanitizer stages -/

theorem mem_removeStars {c : Char} {l : List Char} (h : c ∈ removeStars l) : c ∈ l :=
  (List.mem_filter.mp h).1

theorem mem_removeReserved {c : Char} {l : List Char} (h : c ∈ removeReserved l) :
    c ∈ l ∧ reservedChar c = false := by
  have h2 := List.mem_filter.mp h
  exact ⟨h2.1, by simpa using h2.2⟩

theorem mem_removeCrTab {c : Char} {l : List Char} (h : c ∈ removeCrTab l) : c ∈ l :=
  (List.mem_filter.mp h).1

theorem mem_newlineDash {c : Char} {l : List Char} (h : c ∈ newlineDash l) :
    (c ∈ l ∧ c ≠ '\n') ∨ c = ' ' ∨ c = '-' := by
  rcases List.mem_flatMap.mp h with ⟨a, ha, hc⟩
  by_cases hna : a = '\n'
  · subst hna
    have hc2 : c = ' ' ∨ c = '-' ∨ c = ' ' := by simpa using hc
    rcases hc2 with rfl | rfl | rfl
    · exact .inr (.inl rfl)
    · exact .inr (.inr rfl)
    · exact .inr (.inl rfl)
  · simp only [if_neg hna, List.mem_singleton] at hc
    subst hc
    exact .inl ⟨ha, hna⟩

theorem mem_ampersandAnd {c : Char} {l : List Char} (h : c ∈ ampersandAnd l) :
    (c ∈ l ∧ c ≠ '&') ∨ c = 'a' ∨ c = 'n' ∨ c = 'd' := by
  rcases List.mem_flatMap.mp h with ⟨a, ha, hc⟩
  by_cases hna : a = '&'
  · subst hna
    have hc2 : c = 'a' ∨ c = 'n' ∨ c = 'd' := by simpa using hc
    rcases hc2 with rfl | rfl | rfl
    · exact .inr (.inl rfl)
    · exact .inr (.inr (.inl rfl))
    · exact .inr (.inr (.inr rfl))
  · simp only [if_neg hna, List.mem_singleton] at hc
    subst hc
    exact .inl ⟨ha, hna⟩

theorem mem_collapseFirstDots {c : Char} : ∀ {l : List Char},
    c ∈ collapseFirstDots l → c ∈ l ∨ c = '.' := by
  intro l h
  induction l with
  | nil => simp [collapseFirstDots] at h
  | cons a rest ih =>
    unfold collapseFirstDots at h
    split at h
    · next ha =>
      rcases List.mem_cons.mp h with rfl | hm
      · exact .inr rfl
      · exact .inl (List.mem_cons_of_mem _ ((List.dropWhile_sublist _).subset hm))
    · rcases List.mem_cons.mp h with rfl | hm
      · exact .inl (List.mem_cons_self _ _)
      · rcases ih hm with h1 | h1
        · exact .inl (List.mem_cons_of_mem _ h1)
        · exact .inr h1

theorem mem_stripLeadingTilde {c : Char} {l : List Char} (h : c ∈ stripLeadingTilde l) :
    c ∈ l := by
  unfold stripLeadingTilde at h
  split at h
  · exact List.mem_cons_of_mem _ h
  · exact h

theorem mem_stripDotOnce {c : Char} {l : List Char} (h : c ∈ stripDotOnce l) : c ∈ l := by
  unfold stripDotOnce at h
  split at h
  · exact List.mem_cons_of_mem _ h
  · split at h
    · exact (List.dropLast_sublist _).subset h
    · exact h

theorem mem_collapseFirstWs {c : Char} : ∀ {l : List Char},
    c ∈ collapseFirstWs l → c ∈ l ∨ c = ' ' := by
  intro l h
  induction l with
  | nil => simp [collapseFirstWs] at h
  | cons a rest ih =>
    unfold collapseFirstWs at h
    split at h
    · rcases List.mem_cons.mp h with rfl | hm
      · exact .inr rfl
      · exact .inl (List.mem_cons_of_mem _ ((List.dropWhile_sublist _).subset hm))
    · rcases List.mem_cons.mp h with rfl | hm
      · exact .inl (List.mem_cons_self _ _)
      · rcases ih hm with h1 | h1
        · exact .inl (List.mem_cons_of_mem _ h1)
        · exact .inr h1

theorem mem_jsTrim {c : Char} {l : List Char} (h : c ∈ jsTrim l) : c ∈ l := by
  unfold jsTrim at h
  have h1 := List.mem_reverse.mp h
  have h2 := (List.dropWhile_sublist _).subset h1
  have h3 := List.mem_reverse.mp h2
  exact (List.dropWhile_sublist _).subset h3

/-- Every character of the sanitizer's output (past the link-removal
stage) is neither reserved, nor an ampersand, nor a newline. -/
theorem normalizeAfterLinksL_chars {l : List Char} {c : Char}
    (h : c ∈ normalizeAfterLinksL l) :
    reservedChar c = false ∧ c ≠ '&' ∧ c ≠ '\n' := by
  unfold normalizeAfterLinksL at h
  have h1 := mem_jsTrim h
  rcases mem_collapseFirstWs h1 with h2 | rfl
  · have h3 := mem_stripDotOnce h2
    have h4 := mem_stripLeadingTilde h3
    rcases mem_collapseFirstDots h4 with h5 | rfl
    · rcases mem_ampersandAnd h5 with ⟨h6, hamp⟩ | h6
      · rcases mem_newlineDash h6 with ⟨h7, hnl⟩ | h7
        · have h8 := mem_removeCrTab h7
          have h9 := mem_removeReserved h8
          exact ⟨h9.2, hamp, hnl⟩
        · rcases h7 with rfl | rfl
          · exact ⟨by decide, by decide, by decide⟩
          · exact ⟨by decide, by decide, by decide⟩
      · rcases h6 with rfl | rfl | rfl
        · exact ⟨by decide, by decide, by decide⟩
        · exact ⟨by decide, by decide, by decide⟩
        · exact ⟨by decide, by decide, by decide⟩
    · exact ⟨by decide, by decide, by decide⟩
  · exact ⟨by decide, by decide, by decide⟩

/-! ## Lemmas: the link-removal pass -/

theorem removeLinksFuel_irrel : ∀ f g l, l.length ≤ f → l.length ≤ g →
    removeLinksFuel f l = removeLinksFuel g l := by
  intro f
  induction f with
  | zero =>
    intro g l hf _
    have hl : l = [] := List.eq_nil_of_length_eq_zero (Nat.le_zero.mp hf)
    subst hl
    cases g <;> rfl
  | succ f ih =>
    intro g l hf hg
    cases l with
    | nil => cases g <;> rfl
    | cons c rest =>
      cases g with
      | zero => simp at hg
      | succ g =>
        have hr : rest.length ≤ f := by simpa using hf
        have hr2 : rest.length ≤ g := by simpa using hg
        simp only [removeLinksFuel]
        cases h : urlMatchLen (c :: rest) with
        | some n =>
          exact ih g _ (le_trans (by rw [List.length_drop]; omega) hr)
            (le_trans (by rw [List.length_drop]; omega) hr2)
        | none =>
          rw [ih g rest hr hr2]

theorem removeLinksL_cons_url {c : Char} {rest : List Char} {n : Nat}
    (h : urlMatchLen (c :: rest) = some n) :
    removeLinksL (c :: rest) = removeLinksL (rest.drop (n - 1)) := by
  have h1 : removeLinksL (c :: rest) = removeLinksFuel rest.length (rest.drop (n - 1)) := by
    unfold removeLinksL
    simp only [List.length_cons, removeLinksFuel, h]
  rw [h1, removeLinksL]
  exact removeLinksFuel_irrel _ _ _ (by rw [List.length_drop]; omega) le_rfl

theorem removeLinksL_cons_nourl {c : Char} {rest : List Char}
    (h : urlMatchLen (c :: rest) = none) :
    removeLinksL (c :: rest) = c :: removeLinksL rest := by
  unfold removeLinksL
  simp only [List.length_cons, removeLinksFuel, h]

theorem removeLinksL_url_step {l : List Char} {n : Nat} (hne : l ≠ [])
    (h : urlMatchLen l = some n) (hn : 1 ≤ n) :
    removeLinksL l = removeLinksL (l.drop n) := by
  cases l with
  | nil => exact absurd rfl hne
  | cons c rest =>
    rw [removeLinksL_cons_url h]
    congr 1
    cases n with
    | zero => omega
    | succ m => simp

theorem takeWhile_append_blocked {p : Char → Bool} : ∀ (u b : List Char),
    (∀ c ∈ u, p c = true) →
    (match b with | [] => True | c :: _ => p c = false) →
    (u ++ b).takeWhile p = u := by
  intro u
  induction u with
  | nil =>
    intro b _ hb
    cases b with
    | nil => rfl
    | cons c bs => simp [List.takeWhile_cons, hb]
  | cons a u ih =>
    intro b hu hb
    have ha : p a = true := hu a (List.mem_cons_self _ _)
    simp [List.takeWhile_cons, ha, ih b (fun c hc => hu c (List.mem_cons_of_mem _ hc)) hb]

theorem isPrefixOf_append (p t : List Char) : p.isPrefixOf (p ++ t) = true := by
  induction p with
  | nil => simp [List.isPrefixOf]
  | cons a p ih => simp [List.isPrefixOf, ih]

theorem toList_https : "https://".toList = httpsL := rfl

theorem toList_http : "http://".toList = httpL := rfl

theorem schemeLen_https (t : List Char) : schemeLen (httpsL ++ t) = some 8 := by
  unfold schemeLen
  rw [toList_https]
  simp [isPrefixOf_append]

theorem schemeLen_http (t : List Char) : schemeLen (httpL ++ t) = some 7 := by
  unfold schemeLen
  rw [toList_https, toList_http]
  have hfalse : httpsL.isPrefixOf (httpL ++ t) = false := by
    simp [httpsL, httpL, List.isPrefixOf]
  simp [hfalse, isPrefixOf_append]

theorem urlMatchLen_at_scheme (sch : List Char) (k : Nat)
    (hs : ∀ t, schemeLen (sch ++ t) = some k) (hk : sch.length = k)
    (u b : List Char) (hu : ∀ c ∈ u, nonSpaceTilde c = true) (hune : u ≠ [])
    (hb : match b with | [] => True | c :: _ => nonSpaceTilde c = false) :
    urlMatchLen (sch ++ (u ++ b)) = some (k + u.length) := by
  unfold urlMatchLen
  rw [hs (u ++ b)]
  have hdrop : (sch ++ (u ++ b)).drop k = u ++ b := by
    rw [← hk, List.drop_left]
  dsimp only
  rw [hdrop, takeWhile_append_blocked u b hu hb]
  have hlen : u.length ≠ 0 := fun h0 => hune (List.eq_nil_of_length_eq_zero h0)
  simp [hlen]

theorem removeLinksL_url (sch : List Char) (k : Nat)
    (hs : ∀ t, schemeLen (sch ++ t) = some k) (hk : sch.length = k) (hk1 : 1 ≤ k) :
    ∀ (a u b : List Char),
    (∀ i, i < a.length → schemeLen ((a ++ (sch ++ (u ++ b))).drop i) = none) →
    (∀ c ∈ u, nonSpaceTilde c = true) → u ≠ [] →
    (match b with | [] => True | c :: _ => nonSpaceTilde c = false) →
    removeLinksL (a ++ (sch ++ (u ++ b))) = a ++ removeLinksL b := by
  intro a
  induction a with
  | nil =>
    intro u b _ hu hune hb
    have hm := urlMatchLen_at_scheme sch k hs hk u b hu hune hb
    have hne : sch ++ (u ++ b) ≠ [] := by
      intro h0
      have := congrArg List.length h0
      simp [hk] at this
      omega
    rw [List.nil_append, removeLinksL_url_step hne hm (by omega)]
    have hdrop : (sch ++ (u ++ b)).drop (k + u.length) = b := by
      rw [← List.append_assoc]
      have hlen : (sch ++ u).length = k + u.length := by simp [hk]
      rw [← hlen, List.drop_left]
    rw [hdrop, List.nil_append]
  | cons c a ih =>
    intro u b ha hu hune hb
    have h0 : schemeLen (c :: (a ++ (sch ++ (u ++ b)))) = none := by
      have := ha 0 (by simp)
      simpa using this
    have hnone : urlMatchLen (c :: (a ++ (sch ++ (u ++ b)))) = none := by
      unfold urlMatchLen
      rw [h0]
    have ha2 : ∀ i, i < a.length → schemeLen ((a ++ (sch ++ (u ++ b))).drop i) = none := by
      intro i hi
      have := ha (i + 1) (by simp; omega)
      simpa using this
    show removeLinksL (c :: (a ++ (sch ++ (u ++ b)))) = c :: (a ++ removeLinksL b)
    rw [removeLinksL_cons_nourl hnone, ih u b ha2 hu hune hb]

/-! ## Claims C5 and C10: the sanitizer -/

/-- C5 counterexample: `NormalizeUtils.normalize` is not idempotent.  The
`^\.|\.$` replacement lacks the `g` flag, so `".a."` loses only its
leading dot on the first pass and its trailing dot only on a second
pass. -/
theorem c5_counterexample : normalize (normalize ".a.") ≠ normalize ".a." := by decide

/-- C5 (amended): for every input, the sanitizer's output contains no
character of the reserved set `" { } * : < > ? / % + |`, no ampersand
(each `&` is converted to `and`), and no newline (each newline becomes
`" - "`); idempotence holds on the repository's sample test inputs but
not for every string. -/
theorem c5_sanitize_amended :
    (∀ (s : String) (c : Char), c ∈ (normalize s).toList →
      reservedChar c = false ∧ c ≠ '&' ∧ c ≠ '\n') ∧
    normalize (normalize "~test") = normalize "~test" ∧
    normalize (normalize ".test") = normalize ".test" ∧
    normalize (normalize "test.") = normalize "test." ∧
    normalize (normalize "te...st") = normalize "te...st" ∧
    normalize (normalize "Percent (%)") = normalize "Percent (%)" ∧
    normalize (normalize "Ampersand (&)") = normalize "Ampersand (&)" ∧
    normalize (normalize "Braces (\x7b \x7d)") = normalize "Braces (\x7b \x7d)" ∧
    normalize (normalize "Google http://google.com.br WebSite") =
      normalize "Google http://google.com.br WebSite" ∧
    normalize "Ampersand (&)" = "Ampersand (and)" ∧
    normalize "a\nb" = "a - b" := by
  refine ⟨?_, by decide, by decide, by decide, by decide, by decide, by decide, by decide,
    by decide, by decide, by decide⟩
  intro s c h
  exact normalizeAfterLinksL_chars (h : c ∈ normalizeAfterLinksL (removeLinksL s.toList))

/-- Witness for C5 (amended) at the concrete input `"a&b"`. -/
theorem c5_sanitize_amended_w :
    reservedChar 'a' = false ∧ 'a' ≠ '&' ∧ 'a' ≠ '\n' :=
  c5_sanitize_amended.1 "a&b" 'a' (by decide)

/-- C10: link removal is the first stage of `normalize` for every input,
and it deletes every `http://`/`https://` URL substring up to the next
space or tilde in full.  The two universal conjuncts state exact deletion
of a URL whose scheme is the first one in the string; the closed
conjuncts show a filename losing an entire URL, not just its reserved
characters. -/
theorem c10_removeLinks_first :
    (∀ s : String, normalize s = normalizeAfterLinks (removeLinks s)) ∧
    (∀ a u b : List Char,
      (∀ i, i < a.length → schemeLen ((a ++ (httpsL ++ (u ++ b))).drop i) = none) →
      (∀ c ∈ u, nonSpaceTilde c = true) → u ≠ [] →
      (match b with | [] => True | c :: _ => nonSpaceTilde c = false) →
      removeLinksL (a ++ (httpsL ++ (u ++ b))) = a ++ removeLinksL b) ∧
    (∀ a u b : List Char,
      (∀ i, i < a.length → schemeLen ((a ++ (httpL ++ (u ++ b))).drop i) = none) →
      (∀ c ∈ u, nonSpaceTilde c = true) → u ≠ [] →
      (match b with | [] => True | c :: _ => nonSpaceTilde c = false) →
      removeLinksL (a ++ (httpL ++ (u ++ b))) = a ++ removeLinksL b) ∧
    removeLinks "Google http://google.com.br WebSite" = "Google  WebSite" ∧
    normalize "Google http://google.com.br WebSite" = "Google WebSite" := by
  refine ⟨fun s => rfl, ?_, ?_, by decide, by decide⟩
  · exact removeLinksL_url httpsL 8 schemeLen_https rfl (by omega)
  · exact removeLinksL_url httpL 7 schemeLen_http rfl (by omega)

/-- Witness for C10 at a concrete prefix, URL and suffix. -/
theorem c10_removeLinks_first_w :
    removeLinksL ("x ".toList ++ (httpsL ++ ("ab".toList ++ " y".toList))) =
      "x ".toList ++ removeLinksL " y".toList :=
  c10_removeLinks_first.2.1 "x ".toList "ab".toList " y".toList
    (by decide) (by decide) (by decide) (show nonSpaceTilde ' ' = false by decide)

/-! ## Lemmas: the resilient request executor -/

theorem exceptShape_ok {x : Except NsError ApiBody} {b : ApiBody}
    (h : exceptShape x = .ok b) : x = .ok b := by
  cases x with
  | error e => simp [exceptShape] at h
  | ok b2 => simpa [exceptShape] using h

theorem renewTokenWithNeeded_outcome (env : RenewEnv) (st : ServiceState)
    (url method : String) (body headers : JsVal) :
    exceptShape (renewTokenWithNeeded env st url method body headers).1 = renewOutcome env := by
  unfold renewTokenWithNeeded renewOutcome refreshToken requestAuthorizationToken
    requestAuthTokenInner renewFinish finishOutcome jsonResult
  by_cases h1 : env.first.status = 401
  · simp only [h1, if_true]
    cases hf : env.refresh.fetchOutcome with
    | error msg => simp [exceptShape]
    | ok pair =>
      obtain ⟨status, ab⟩ := pair
      cases he : ab.error with
      | some e => simp [he, exceptShape]
      | none =>
        by_cases h2 : env.second.status = 401
        · simp [he, h2, exceptShape]
        · cases hj : env.second.jsonOutcome <;> simp [he, h2, hj, exceptShape]
  · cases hj : env.first.jsonOutcome <;> simp [h1, hj, exceptShape]


theorem requestApiGo_attempts_le (envs : Nat → RenewEnv) (url method : String)
    (body headers : JsVal) :
    ∀ remaining attemptIdx st,
    (requestApiGo envs url method body headers attemptIdx remaining st).attempts ≤ remaining := by
  intro remaining
  induction remaining with
  | zero => intro attemptIdx st; simp [requestApiGo]
  | succ r ih =>
    intro attemptIdx st
    simp only [requestApiGo]
    rcases hr : renewTokenWithNeeded (envs attemptIdx) st (getApiUrl st ++ url) method body headers
      with ⟨res, st1, tr⟩
    cases res with
    | error e =>
      simpa using Nat.succ_le_succ (ih (attemptIdx + 1) st1)
    | ok b =>
      cases hb : handleParsedBody method url b with
      | retNull => simp [hb]
      | throwErr e =>
        simp only [hb]
        simpa using Nat.succ_le_succ (ih (attemptIdx + 1) st1)
      | breakWith b1 => simp [hb]


theorem attemptFails_elim {env : RenewEnv} {res : Except NsError ApiBody}
    (hsh : exceptShape res = renewOutcome env) (hfail : attemptFails env = true) :
    (∃ e, res = .error e) ∨
    (∃ b err, res = .ok b ∧ b.error = some err ∧ markerTest err.message = false) := by
  unfold attemptFails at hfail
  cases hro : renewOutcome env with
  | error u =>
    rw [hro] at hsh
    cases res with
    | error e => exact .inl ⟨e, rfl⟩
    | ok b => simp [exceptShape] at hsh
  | ok b =>
    rw [hro] at hsh hfail
    have hres : res = .ok b := exceptShape_ok hsh
    dsimp only at hfail
    cases he : b.error with
    | none => rw [he] at hfail; simp at hfail
    | some err =>
      rw [he] at hfail
      refine .inr ⟨b, err, hres, he, ?_⟩
      simpa using hfail

theorem requestApiGo_all_fail (envs : Nat → RenewEnv) (url method : String)
    (body headers : JsVal) :
    ∀ remaining attemptIdx st,
    (∀ k, attemptIdx ≤ k → k < attemptIdx + remaining → attemptFails (envs k) = true) →
    (requestApiGo envs url method body headers attemptIdx remaining st).result =
      .error (maxRetriesError method url) ∧
    (requestApiGo envs url method body headers attemptIdx remaining st).attempts = remaining := by
  intro remaining
  induction remaining with
  | zero => intro attemptIdx st _; simp [requestApiGo]
  | succ r ih =>
    intro attemptIdx st hall
    have hfail : attemptFails (envs attemptIdx) = true := hall attemptIdx le_rfl (by omega)
    have hsh := renewTokenWithNeeded_outcome (envs attemptIdx) st (getApiUrl st ++ url) method body headers
    simp only [requestApiGo]
    rcases hr : renewTokenWithNeeded (envs attemptIdx) st (getApiUrl st ++ url) method body headers
      with ⟨res, st1, tr⟩
    rw [hr] at hsh
    have hrec := ih (attemptIdx + 1) st1 (fun k hk1 hk2 => hall k (by omega) (by omega))
    rcases attemptFails_elim hsh hfail with ⟨e, rfl⟩ | ⟨b, err, rfl, he, hm⟩
    · exact ⟨by simpa using hrec.1, by simpa using hrec.2⟩
    · have hhb : handleParsedBody method url b = .throwErr (requestErrorOf method url) := by
        simp [handleParsedBody, he, hm]
      simp only [hhb]
      exact ⟨by simpa using hrec.1, by simpa using hrec.2⟩

theorem requestApiGo_first_success (envs : Nat → RenewEnv) (url method : String)
    (body headers : JsVal) :
    ∀ j remaining attemptIdx st b, j < remaining →
    (∀ i, i < j → attemptFails (envs (attemptIdx + i)) = true) →
    renewOutcome (envs (attemptIdx + j)) = .ok b → b.error = none →
    (requestApiGo envs url method body headers attemptIdx remaining st).result = .ok (some b) ∧
    (requestApiGo envs url method body headers attemptIdx remaining st).attempts = j + 1 := by
  intro j
  induction j with
  | zero =>
    intro remaining attemptIdx st b hlt hfails hro hbe
    cases remaining with
    | zero => omega
    | succ r =>
      have hsh := renewTokenWithNeeded_outcome (envs attemptIdx) st (getApiUrl st ++ url) method body headers
      simp only [requestApiGo]
      rcases hr : renewTokenWithNeeded (envs attemptIdx) st (getApiUrl st ++ url) method body headers
        with ⟨res, st1, tr⟩
      rw [hr] at hsh
      rw [show attemptIdx + 0 = attemptIdx by omega] at hro
      rw [hro] at hsh
      have hres : res = .ok b := exceptShape_ok hsh
      subst hres
      have hhb : handleParsedBody method url b = .breakWith b := by
        simp [handleParsedBody, hbe]
      simp [hhb]
  | succ j ih =>
    intro remaining attemptIdx st b hlt hfails hro hbe
    cases remaining with
    | zero => omega
    | succ r =>
      have hfail : attemptFails (envs attemptIdx) = true := by
        have := hfails 0 (by omega)
        rwa [show attemptIdx + 0 = attemptIdx by omega] at this
      have hsh := renewTokenWithNeeded_outcome (envs attemptIdx) st (getApiUrl st ++ url) method body headers
      simp only [requestApiGo]
      rcases hr : renewTokenWithNeeded (envs attemptIdx) st (getApiUrl st ++ url) method body headers
        with ⟨res, st1, tr⟩
      rw [hr] at hsh
      have hfails2 : ∀ i, i < j → attemptFails (envs (attemptIdx + 1 + i)) = true := by
        intro i hi
        have := hfails (i + 1) (by omega)
        rwa [show attemptIdx + (i + 1) = attemptIdx + 1 + i by omega] at this
      have hro2 : renewOutcome (envs (attemptIdx + 1 + j)) = .ok b := by
        rwa [show attemptIdx + 1 + j = attemptIdx + (j + 1) by omega]
      have hrec := ih r (attemptIdx + 1) st1 b (by omega) hfails2 hro2 hbe
      rcases attemptFails_elim hsh hfail with ⟨e, rfl⟩ | ⟨b2, err, rfl, he, hm⟩
      · exact ⟨by simpa using hrec.1, by simpa using hrec.2⟩
      · have hhb : handleParsedBody method url b2 = .throwErr (requestErrorOf method url) := by
          simp [handleParsedBody, he, hm]
        simp only [hhb]
        exact ⟨by simpa using hrec.1, by simpa using hrec.2⟩

theorem requestApiGo_soft (envs : Nat → RenewEnv) (url method : String)
    (body headers : JsVal) (attemptIdx r : Nat) (st : ServiceState) (b : ApiBody) (e : ErrInfo)
    (hro : renewOutcome (envs attemptIdx) = .ok b) (he : b.error = some e)
    (hm : markerTest e.message = true) :
    (requestApiGo envs url method body headers attemptIdx (r + 1) st).result = .ok none := by
  have hsh := renewTokenWithNeeded_outcome (envs attemptIdx) st (getApiUrl st ++ url) method body headers
  simp only [requestApiGo]
  rcases hr : renewTokenWithNeeded (envs attemptIdx) st (getApiUrl st ++ url) method body headers
    with ⟨res, st1, tr⟩
  rw [hr] at hsh
  rw [hro] at hsh
  have hres : res = .ok b := exceptShape_ok hsh
  subst hres
  have hhb : handleParsedBody method url b = .retNull := by
    simp [handleParsedBody, he, hm]
  simp [hhb]

/-! ## Claims C1, C2, C3: the resilient request executor -/

/-- C1 counterexample: with every inner attempt failing, `#requestApi`
performs exactly 3 inner attempts and raises the max-retries error right
after the 3rd failure — there is no 4th failure, and the 3rd failure is
not retried. -/
theorem c1_counterexample :
    (requestApi (fun _ => failEnv) stA "/x" "GET" .undef .undef).attempts = 3 ∧
    (requestApi (fun _ => failEnv) stA "/x" "GET" .undef .undef).result =
      .error (maxRetriesError "GET" "/x") :=
  ⟨by decide, by decide⟩

/-- C1 (amended): each logical call performs at most 3 inner attempts;
when all 3 fail, the 3rd failure surfaces the MaxRetriesError naming
method and URL (the 1st and 2nd failures being swallowed and retried),
and a clean inner success at attempt `k` breaks the loop immediately,
returning the parsed body after exactly `k` attempts. -/
theorem c1_retry_amended (envs : Nat → RenewEnv) (st : ServiceState)
    (url method : String) (body headers : JsVal) :
    (requestApi envs st url method body headers).attempts ≤ MAX_RETRIES ∧
    ((∀ k, 1 ≤ k → k ≤ MAX_RETRIES → attemptFails (envs k) = true) →
      (requestApi envs st url method body headers).result =
        .error (maxRetriesError method url) ∧
      (requestApi envs st url method body headers).attempts = MAX_RETRIES) ∧
    (∀ k b, 1 ≤ k → k ≤ MAX_RETRIES →
      (∀ j, 1 ≤ j → j < k → attemptFails (envs j) = true) →
      renewOutcome (envs k) = .ok b → b.error = none →
      (requestApi envs st url method body headers).result = .ok (some b) ∧
      (requestApi envs st url method body headers).attempts = k) := by
  simp only [requestApi]
  refine ⟨requestApiGo_attempts_le _ _ _ _ _ MAX_RETRIES 1 st, ?_, ?_⟩
  · intro hall
    exact requestApiGo_all_fail envs url method body _ MAX_RETRIES 1 st
      (fun k hk1 hk2 => hall k hk1 (by omega))
  · intro k b hk1 hk2 hfails hro hbe
    have h := requestApiGo_first_success envs url method body
      (if headers = JsVal.undef then JsVal.obj [] else headers) (k - 1) MAX_RETRIES 1 st b
      (by unfold MAX_RETRIES at hk2 ⊢; omega)
      (fun i hi => hfails (1 + i) (by omega) (by omega))
      (by rwa [show 1 + (k - 1) = k by omega]) hbe
    rw [show k - 1 + 1 = k by omega] at h
    exact h

/-- Witness for C1 (amended): attempt 1 fails, attempt 2 succeeds, so the
call returns the parsed body after exactly 2 attempts. -/
theorem c1_retry_amended_w :
    (requestApi (fun k => if k = 1 then failEnv else okEnv) stA "/x" "GET" .undef .undef).result =
      .ok (some okBody) ∧
    (requestApi (fun k => if k = 1 then failEnv else okEnv) stA "/x" "GET" .undef .undef).attempts = 2 :=
  (c1_retry_amended (fun k => if k = 1 then failEnv else okEnv) stA "/x" "GET" .undef .undef).2.2
    2 okBody (by omega) (by decide)
    (fun j h1 h2 => by
      have hj : j = 1 := by omega
      subst hj
      decide)
    (by decide) rfl

/-- C2: within one inner attempt, a 401 on the first request triggers
exactly one token exchange with grant kind `refresh_token` carrying the
stored refresh token; when that exchange succeeds the request is replayed
exactly once, a second 401 fails the attempt with the replayed response's
status text, and a non-401 first response triggers no exchange at all. -/
theorem c2_renew_behavior (env : RenewEnv) (st : ServiceState)
    (url method : String) (body headers : JsVal) :
    (env.first.status ≠ 401 →
      exchangeCount (renewTokenWithNeeded env st url method body headers).2.2 = 0 ∧
      httpCount (renewTokenWithNeeded env st url method body headers).2.2 = 1) ∧
    (env.first.status = 401 →
      exchangeCount (renewTokenWithNeeded env st url method body headers).2.2 = 1 ∧
      Ev.exchange "refresh_token" st.nsRefreshToken ∈
        (renewTokenWithNeeded env st url method body headers).2.2) ∧
    (env.first.status = 401 → refreshOk env.refresh = true →
      httpCount (renewTokenWithNeeded env st url method body headers).2.2 = 2) ∧
    (env.first.status = 401 → refreshOk env.refresh = true → env.second.status = 401 →
      (renewTokenWithNeeded env st url method body headers).1 =
        .error (.base env.second.statusText)) := by
  unfold renewTokenWithNeeded refreshToken requestAuthorizationToken requestAuthTokenInner
    renewFinish refreshOk
  refine ⟨?_, ?_, ?_, ?_⟩
  · intro h1
    simp [h1, exchangeCount, httpCount]
  · intro h1
    simp only [h1, if_true]
    cases hf : env.refresh.fetchOutcome with
    | error msg => simp [exchangeCount, httpCount]
    | ok pair =>
      obtain ⟨status, ab⟩ := pair
      cases he : ab.error with
      | some e => simp [he, exchangeCount, httpCount]
      | none =>
        by_cases h2 : env.second.status = 401 <;>
          simp [he, h2, exchangeCount, httpCount]
  · intro h1 hok
    simp only [h1, if_true]
    cases hf : env.refresh.fetchOutcome with
    | error msg => rw [hf] at hok; simp at hok
    | ok pair =>
      obtain ⟨status, ab⟩ := pair
      rw [hf] at hok
      have he : ab.error = none := by simpa [Option.isNone_iff_eq_none] using hok
      by_cases h2 : env.second.status = 401 <;>
        simp [he, h2, exchangeCount, httpCount]
  · intro h1 hok h2
    simp only [h1, if_true]
    cases hf : env.refresh.fetchOutcome with
    | error msg => rw [hf] at hok; simp at hok
    | ok pair =>
      obtain ⟨status, ab⟩ := pair
      rw [hf] at hok
      have he : ab.error = none := by simpa [Option.isNone_iff_eq_none] using hok
      simp [he, h2]

/-- Witness for C2 at an environment answering 401 twice. -/
theorem c2_renew_behavior_w :
    exchangeCount (renewTokenWithNeeded env401 stA "u" "GET" .undef .undef).2.2 = 1 ∧
    httpCount (renewTokenWithNeeded env401 stA "u" "GET" .undef .undef).2.2 = 2 ∧
    (renewTokenWithNeeded env401 stA "u" "GET" .undef .undef).1 =
      .error (.base "Unauthorized") :=
  ⟨((c2_renew_behavior env401 stA "u" "GET" .undef .undef).2.1 rfl).1,
    (c2_renew_behavior env401 stA "u" "GET" .undef .undef).2.2.1 rfl rfl,
    (c2_renew_behavior env401 stA "u" "GET" .undef .undef).2.2.2 rfl rfl rfl⟩

/-- C3: a parsed payload with an `error` field makes the inner attempt
throw the RequestError naming method and URL, except when the error
message contains the transient marker, in which case the whole call
returns the soft-success `null` immediately. -/
theorem c3_error_payload (method url : String) (b : ApiBody) (err : ErrInfo)
    (hb : b.error = some err) :
    (markerTest err.message = true →
      handleParsedBody method url b = .retNull ∧
      (∀ (envs : Nat → RenewEnv) (st : ServiceState) (bodyv headersv : JsVal),
        renewOutcome (envs 1) = .ok b →
        (requestApi envs st url method bodyv headersv).result = .ok none)) ∧
    (markerTest err.message = false →
      handleParsedBody method url b = .throwErr (requestErrorOf method url)) := by
  constructor
  · intro hm
    constructor
    · simp [handleParsedBody, hb, hm]
    · intro envs st bodyv headersv hro
      simp only [requestApi]
      exact requestApiGo_soft envs url method bodyv _ 1 2 st b err hro hb hm
  · intro hm
    simp [handleParsedBody, hb, hm]

/-- Witness for C3: a marker-carrying error payload makes the whole call
return `null`. -/
theorem c3_error_payload_w :
    (requestApi (fun _ => markerEnv) stA "/x" "GET" .undef .undef).result = .ok none :=
  ((c3_error_payload "GET" "/x" markerBody
      { message := some "the IO error during request payload read happened" } rfl).1
    (by decide)).2 (fun _ => markerEnv) stA .undef .undef (by decide)

/-! ## Claim C4: downloadFile -/

/-- C4: `downloadFile` fails fast with the configuration error and zero
network calls when no script id is configured; on a successful restlet
response it writes base64-detected content as decoded binary bytes and
other content as raw text, at `resolve(folderPath, normalize(info.name))`,
and returns that resolved path.  The closed conjuncts pin the base64
detector down on concrete samples. -/
theorem c4_downloadFile (env : DownloadEnv) (st : ServiceState) (fid folder : String) :
    (truthy st.nsScript = false →
      downloadFile env st fid folder = ⟨.error (.base "Script is required!"), [], 0⟩) ∧
    (truthy st.nsScript = true → env.response.ok = true →
      ∀ fo, env.response.jsonOutcome = .ok fo →
        (isFileInBase64 fo.content = true →
          downloadFile env st fid folder =
            ⟨.ok (env.resolvePath folder (normalize fo.info.name)),
              [(env.resolvePath folder (normalize fo.info.name),
                .binary (env.b64decode fo.content))], 1⟩) ∧
        (isFileInBase64 fo.content = false →
          downloadFile env st fid folder =
            ⟨.ok (env.resolvePath folder (normalize fo.info.name)),
              [(env.resolvePath folder (normalize fo.info.name),
                .text fo.content)], 1⟩)) ∧
    isFileInBase64 "QUJD" = true ∧ isFileInBase64 "QUI=" = true ∧
    isFileInBase64 "QQ==" = true ∧ isFileInBase64 "hello world" = false ∧
    isFileInBase64 "QUJDRA" = false := by
  refine ⟨?_, ?_, by decide, by decide, by decide, by decide, by decide⟩
  · intro hs
    simp [downloadFile, hs]
  · intro hs hok fo hjson
    constructor <;> intro hb64 <;> simp [downloadFile, hs, hok, hjson, hb64]

/-- Witness for C4: base64 content is written decoded, at the resolved
sanitized path. -/
theorem c4_downloadFile_w :
    downloadFile dlEnv stA "524171" "dir" =
      ⟨.ok "dir/ab.txt", [("dir/ab.txt", .binary [65, 66, 67])], 1⟩ :=
  ((c4_downloadFile dlEnv stA "524171" "dir").2.1 rfl rfl
    { content := "QUJD", info := { name := "a*b.txt" } } rfl).1 rfl

/-! ## Claim C6: the token exchange -/

/-- C6 counterexample: on a body whose `error.message` is
`"remote says no"`, the token exchange surfaces the generic catch-clause
message, which does not carry the remote message. -/
theorem c6_counterexample :
    (requestAuthorizationToken remoteErrEnv stA (some "tok") "authorization_code").1 =
      .error (.base "Cannot get the NetSuite authorization code") ∧
    strContains "Cannot get the NetSuite authorization code" "remote says no" = false :=
  ⟨by decide, by decide⟩

/-- C6 (amended): a parsed token-exchange response containing an `error`
field is a hard failure regardless of HTTP status, but the surfaced error
carries the generic message naming the token key; the remote error message
(or its fallback) appears only on the inner error that the operation's
catch clause replaces.  The token state is left unchanged. -/
theorem c6_auth_error_amended (env : AuthEnv) (st : ServiceState) (token : Option String)
    (grant : String) (status : Nat) (body : AuthBody) (err : ErrInfo)
    (hf : env.fetchOutcome = .ok (status, body)) (he : body.error = some err) :
    (requestAuthorizationToken env st token grant).1 =
      .error (.base ("Cannot get the NetSuite authorization " ++ tokenKeyOf grant)) ∧
    (requestAuthTokenInner env st token grant).1 =
      .error (.base (errMessageOr err "Error in get authorization token")) ∧
    (requestAuthorizationToken env st token grant).2.1 = st := by
  unfold requestAuthorizationToken requestAuthTokenInner
  rw [hf]
  simp [he]

/-- Witness for C6 (amended) at the concrete remote-error environment. -/
theorem c6_auth_error_amended_w :
    (requestAuthorizationToken remoteErrEnv stA (some "R") "refresh_token").1 =
      .error (.base "Cannot get the NetSuite authorization refresh_token") ∧
    (requestAuthTokenInner remoteErrEnv stA (some "R") "refresh_token").1 =
      .error (.base "remote says no") ∧
    (requestAuthorizationToken remoteErrEnv stA (some "R") "refresh_token").2.1 = stA :=
  c6_auth_error_amended remoteErrEnv stA (some "R") "refresh_token" 200
    { error := some { message := some "remote says no" }, access_token := none, refresh_token := none }
    { message := some "remote says no" } rfl rfl

/-! ## Claims C7, C8, C9: constructor, request wrappers, logout -/

/-- C7: construction fails with the configuration error whenever account
id, client id or client secret is empty or absent; when all three are
present it succeeds and the token state is fully cleared, except that a
pre-supplied access token is installed verbatim. -/
theorem c7_constructor (p : ServiceParams) (envDebug : Bool) :
    (truthy p.accountId = false →
      construct p envDebug = .error (.base "⚠️ The NetSuite Account ID is required!")) ∧
    (truthy p.accountId = true → truthy p.client = false →
      construct p envDebug = .error (.base "⚠️ The NetSuite APP ClientID is required!")) ∧
    (truthy p.accountId = true → truthy p.client = true → truthy p.secret = false →
      construct p envDebug = .error (.base "⚠️ The NetSuite APP ClientSecret is required!")) ∧
    (truthy p.accountId = true → truthy p.client = true → truthy p.secret = true →
      ∃ st, construct p envDebug = .ok st ∧ st.nsState = none ∧ st.nsCode = none ∧
        st.nsRefreshToken = none ∧ st.nsAccessToken = p.token ∧
        (truthy p.token = false → truthy st.nsAccessToken = false)) := by
  refine ⟨?_, ?_, ?_, ?_⟩
  · intro h1
    simp [construct, h1]
  · intro h1 h2
    simp [construct, h1, h2]
  · intro h1 h2 h3
    simp [construct, h1, h2, h3]
  · intro h1 h2 h3
    refine ⟨{ nsAccountId := p.accountId.getD "", nsClientId := p.client.getD ""
              nsClientSecret := p.secret.getD "", nsState := none, nsCode := none
              nsAccessToken := p.token, nsRefreshToken := none
              isDebug := p.debug || envDebug
              shouldLogToken := p.logToken = some "true"
              nsScript := p.script
              nsDeploy := if truthy p.deploy then p.deploy.getD "" else "1" },
            ?_, rfl, rfl, rfl, rfl, fun ht => ht⟩
    simp [construct, logout, h1, h2, h3]

/-- Witness for C7: all credentials present and a pre-supplied token. -/
theorem c7_constructor_w :
    ∃ st, construct
        { accountId := some "a", client := some "c", secret := some "s", token := some "T"
          script := none, deploy := none, debug := false, logToken := none } false = .ok st ∧
      st.nsState = none ∧ st.nsCode = none ∧ st.nsRefreshToken = none ∧
      st.nsAccessToken = some "T" ∧
      (truthy (some "T") = false → truthy st.nsAccessToken = false) :=
  (c7_constructor
    { accountId := some "a", client := some "c", secret := some "s", token := some "T"
      script := none, deploy := none, debug := false, logToken := none } false).2.2.2
    rfl rfl rfl

/-- C8 (bug evidence): `requestGet(url, headers)` forwards the caller's
headers object into the executor's `body` parameter, so the issued request
carries only the bearer-token header and the caller's headers object as
its body. -/
theorem c8_requestGet_headers_bug :
    (requestGet (fun _ => okEnv) stA "/record/v1/account"
        (.obj [("Prefer", "transient")])).trace.head? =
      some (.http
        { url := "https://acct.suitetalk.api.netsuite.com/services/rest/record/v1/account"
          method := "GET"
          headers := [("Authorization", "Bearer A")]
          body := .obj [("Prefer", "transient")] }) := by decide

/-- C9: `logout()` empties all four token-state fields for every prior
state and is idempotent. -/
theorem c9_logout (st : ServiceState) :
    (logout st).nsState = none ∧ (logout st).nsCode = none ∧
    (logout st).nsAccessToken = none ∧ (logout st).nsRefreshToken = none ∧
    logout (logout st) = logout st :=
  ⟨rfl, rfl, rfl, rfl, rfl⟩

end NetSuite
